import Mathlib

/-!
# Verification of the Inner-Website-Link-Crawler against its specification

Shallow embedding of the crawling engine found in `modules/scrapping_thread.py`
and `modules/crawler.py`:

* the pure URL filters (`is_a_valid_http_link`, `is_url_content`, `clean_url`)
  and the sitemap `<loc>` post-processing (`parse_xml`);
* the sequential sitemap-expansion phase (`ScrapingThread.process_sitemaps`)
  and the phase reset (`ScrapingThread.reset_counts`), with the network fetch
  and XML `<loc>` extraction abstracted as an oracle
  `net : String → Option HttpResponse`;
* the concurrent crawl phase (`ScrapingThread.parse_from_links` dispatching
  `ScrapingThread.parse_links_worker` onto a thread pool) as an interleaving
  transition system: each atomic event corresponds to one lock-protected
  critical section or one atomic shared-collection operation of the Python
  code, and a run is an arbitrary interleaving of such events;
* the constructor check of `WebCrawler.__init__` and the completion-percentage
  computation of `WebCrawler.update_progress` (over `ℚ`).
-/

/-- Kernel-reducible model of `String.startsWith` (Python `str.startswith`). -/
def strStartsWith (s pre : String) : Bool :=
  pre.data.isPrefixOf s.data

/-- Kernel-reducible model of `String.endsWith` (Python `str.endswith`). -/
def strEndsWith (s post : String) : Bool :=
  post.data.isSuffixOf s.data

/-- `pat` occurs as a contiguous infix of `l`. -/
def infixOfB (pat : List Char) : List Char → Bool
  | [] => pat.isPrefixOf []
  | c :: rest => pat.isPrefixOf (c :: rest) || infixOfB pat rest

/-- Python's `pat in s` substring test. -/
def containsSub (s pat : String) : Bool :=
  infixOfB pat.data s.data

/-- `ScrapingThread.is_a_valid_http_link` (scrapping_thread.py lines 189-192). -/
def is_a_valid_http_link (url : String) : Bool :=
  if strStartsWith url "mailto:" || strStartsWith url "tel:" then false
  else strStartsWith url "http://" || strStartsWith url "https://"

/-- `ScrapingThread.is_url_content` (scrapping_thread.py lines 217-226). -/
def is_url_content (url : String) : Bool :=
  let invalid_extensions :=
    [".png", ".jpg", ".jpeg", ".gif", ".ppt", ".pptx", ".xls", ".xlsx"]
  let invalid_keywords :=
    ["wp-content", "wp-json", "wp-login", "wp-admin", "wp-includes"]
  if invalid_extensions.any (fun e => strEndsWith url e) then false
  else if invalid_keywords.any (fun k => containsSub url k) then false
  else true

/-- `ScrapingThread.clean_url` (scrapping_thread.py lines 228-230):
`url.split('#')[0]`, the prefix before the first `#`. -/
def clean_url (url : String) : String :=
  ⟨url.data.takeWhile (fun c => c ≠ '#')⟩

/-- Python `str.strip`: drop whitespace at both ends. -/
def strTrim (s : String) : String :=
  ⟨((s.data.dropWhile Char.isWhitespace).reverse.dropWhile Char.isWhitespace).reverse⟩

/-- `ScrapingThread.parse_xml` (scrapping_thread.py lines 205-215), applied to
the list of `<loc>` tag texts of the fetched document: strip each, keep it if
it passes `is_url_content`, clean it, append. -/
def parse_xml (locs : List String) : List String :=
  locs.foldl
    (fun links t =>
      let link := strTrim t
      if is_url_content link then links ++ [clean_url link] else links)
    []

/-- Split a character list at every occurrence of `c` (Python `str.split`). -/
def splitOnChar (c : Char) : List Char → List (List Char)
  | [] => [[]]
  | ch :: rest =>
      let r := splitOnChar c rest
      if ch = c then [] :: r
      else (ch :: r.headD []) :: r.tail

/-- Join character-list pieces with `/` (Python `"/".join`). -/
def joinWithSlash : List (List Char) → List Char
  | [] => []
  | [x] => x
  | x :: y :: rest => x ++ '/' :: joinWithSlash (y :: rest)

/-- Model of `urllib.parse.urljoin` for the cases arising in this development:
an absolute `http(s)` reference is returned unchanged; a relative reference
without a leading slash is resolved against the directory of the base URL. -/
def urljoin (base rel : String) : String :=
  if strStartsWith rel "http://" || strStartsWith rel "https://" then rel
  else ⟨joinWithSlash ((splitOnChar '/' base.data).dropLast) ++ '/' :: rel.data⟩

/-- Abstraction of an HTTP response: the status code, the `href` attributes of
the anchor tags of the body (as extracted by BeautifulSoup in `fetch_links`),
and the texts of the `<loc>` tags of the body (as extracted in `parse_xml`).
A network oracle `net : String → Option HttpResponse` returns `none` when
`requests.get` raises a `RequestException` (DNS/connect/timeout failure). -/
structure HttpResponse where
  status : Nat
  hrefs : List String
  locs : List String
deriving DecidableEq, Repr

/-- `ScrapingThread.fetch_links` (scrapping_thread.py lines 194-203): on a
raised request exception return `[]`; otherwise join every href against the
requested URL.  Note the source performs no status check here (there is no
`raise_for_status` in `fetch_links`). -/
def fetch_links (net : String → Option HttpResponse) (url : String) :
    List String :=
  match net url with
  | none => []
  | some r => r.hrefs.map (urljoin url)

/-- `WebCrawler.__init__` (crawler.py lines 8-21), restricted to the fields the
claims are about.  `sitemap_url : Option String` models a missing (`None`) or
present argument; Python's `if sitemap_url:` is falsy for `None` and `""`. -/
structure WebCrawlerState where
  no_workers : Nat
  initial_sitemap_url : String
  title : String
  pattern : List String
  action_started : Bool
deriving DecidableEq, Repr

/-- Constructor of `WebCrawler`: raises `ValueError("Sitemap URL is required")`
unless the seed sitemap URL is present and nonempty. -/
def webCrawlerInit (no_workers : Nat) (sitemap_url : Option String)
    (title : String) (pattern : List String) :
    Except String WebCrawlerState :=
  match sitemap_url with
  | none => Except.error "Sitemap URL is required"
  | some u =>
      if u = "" then Except.error "Sitemap URL is required"
      else Except.ok ⟨no_workers, u, title, pattern, false⟩

/-- Rounding to two decimals, modelling Python's `round(x, 2)` over `ℚ`
(Python rounds the float half-to-even; no tie arises in any claim). -/
def round2 (q : ℚ) : ℚ :=
  (round (q * 100) : ℚ) / 100

/-- The completion-percentage computation of `WebCrawler.update_progress`
(crawler.py lines 128-140): `percent = (visited/(unvisited+visited))*100;
percent = round(percent, 2)`.  Python raises `ZeroDivisionError` when
`unvisited + visited == 0`; the division is otherwise exact over `ℚ`. -/
def update_progress (visited unvisited : Nat) : Except String ℚ :=
  if unvisited + visited = 0 then Except.error "ZeroDivisionError"
  else
    Except.ok (round2 (((visited : ℚ) / ((unvisited : ℚ) + (visited : ℚ))) * 100))

/-! ## Sitemap-expansion phase (`ScrapingThread.process_sitemaps`) -/

/-- The links that processing URL `u` contributes during the sitemap phase
(scrapping_thread.py lines 128-139): when `'sitemap.xml' in url`, fetch the
document (`raise_for_status` turns a status ≥ 400 into a caught
`RequestException`) and post-process its `<loc>` texts with `parse_xml`;
otherwise, and on any fetch failure, nothing. -/
def sitemapChildren (net : String → Option HttpResponse) (u : String) :
    List String :=
  if containsSub u "sitemap.xml" then
    match net u with
    | some r => if r.status < 400 then parse_xml r.locs else []
    | none => []
  else []

/-- `for link in new_links: if link not in visited: unvisited.add(link)`
(scrapping_thread.py lines 135-137); adding to the `unvisited` set is a no-op
when the link is already present. -/
def addNewLinks (vis : List String) : List String → List String → List String
  | [], rest => rest
  | l :: ls, rest =>
      if l ∈ vis ∨ l ∈ rest then addNewLinks vis ls rest
      else addNewLinks vis ls (rest ++ [l])

/-- The loop of `ScrapingThread.process_sitemaps` (scrapping_thread.py lines
119-139), with an explicit fuel bound on the number of iterations: pop a URL
from `unvisited`, skip it if already visited, otherwise mark it visited and
enqueue the sitemap links it contributes.  Returns `(visited, unvisited)`. -/
def processSitemapsAux (net : String → Option HttpResponse) :
    Nat → List String → List String → List String × List String
  | 0, vis, unv => (vis, unv)
  | _ + 1, vis, [] => (vis, [])
  | fuel + 1, vis, u :: rest =>
      if u ∈ vis then processSitemapsAux net fuel vis rest
      else
        processSitemapsAux net fuel (u :: vis)
          (addNewLinks (u :: vis) (sitemapChildren net u) rest)

/-- `ScrapingThread.process_sitemaps` run from the seed
(`self.unvisited_links.add(initial_sitemap_url)`, scrapping_thread.py line
121). -/
def processSitemaps (net : String → Option HttpResponse) (fuel : Nat)
    (seed : String) : List String × List String :=
  processSitemapsAux net fuel [] [seed]

/-- The two shared URL collections (`visited_links` / `unvisited_links`). -/
structure Frontier where
  visited : List String
  unvisited : List String
deriving DecidableEq, Repr

/-- The sitemap phase as a `Frontier` transformer. -/
def sitemapPhase (net : String → Option HttpResponse) (fuel : Nat)
    (seed : String) : Frontier :=
  { visited := (processSitemaps net fuel seed).1
    unvisited := (processSitemaps net fuel seed).2 }

/-- `ScrapingThread.reset_counts` (scrapping_thread.py lines 111-117):
`unvisited_links = visited_links; visited_links = set()` — the accumulated
visited set (whatever it contains) becomes the new unvisited set. -/
def reset_counts (f : Frontier) : Frontier :=
  { visited := [], unvisited := f.visited }

/-- The frontier handed to the crawl phase by `ScrapingThread.run`
(scrapping_thread.py lines 80-89): sitemap expansion followed by the reset. -/
def crawlSeedFrontier (net : String → Option HttpResponse) (fuel : Nat)
    (seed : String) : Frontier :=
  reset_counts (sitemapPhase net fuel seed)

/-! ## Crawl phase (`parse_from_links` / `parse_links_worker`)

The crawl phase runs one single-threaded dispatch loop plus a pool of worker
threads sharing `visited_links`, `unvisited_links` and the edge log, with one
`threading.Lock`.  Under CPython every single set operation is atomic, and the
workers' compound sections are the two lock-protected blocks.  The phase is
therefore modelled as an interleaving transition system whose atomic events
are:

* `pop u` — one iteration of the dispatch loop removing `u` from `unvisited`
  and submitting a worker task (lines 152-157; `set.pop` removes an arbitrary
  element, so the event carries the chosen URL);
* `exitLoop` — the dispatch loop observing `unvisited` empty and exiting
  (line 152);
* `claimTask i` — task `i` executing the first lock-protected block (lines
  163-166): return if the URL is already visited, otherwise mark it visited;
* `work i` — task `i` executing the rest of the worker body (lines 168-187):
  if the pattern check fails, discard the URL from `unvisited` and finish;
  otherwise fetch (recorded in the ghost field `fetched`) and run the second
  lock-protected block inserting the new links and appending the edges.

The pattern check (line 169: `self.pattern and not any(re.search(p, domain)
for p in self.pattern)`) reads only immutable data, and the fetch touches no
shared state, so folding them into the `work` event loses no interleavings of
the shared collections. -/

/-- Lifecycle of one submitted worker task. -/
inductive Stage
  | start
  | claimed
  | done
deriving DecidableEq, Repr

/-- One submitted `parse_links_worker` call. -/
structure WTask where
  url : String
  stage : Stage
deriving DecidableEq, Repr

/-- Shared state of the crawl phase.  `fetched` is a ghost log of the URLs for
which `fetch_links` has been called; `dispDone` records that the dispatch
loop of `parse_from_links` has exited. -/
structure CrawlState where
  unvisited : List String
  visited : List String
  edges : List (String × String)
  tasks : List WTask
  fetched : List String
  dispDone : Bool
deriving DecidableEq, Repr

/-- Removal of an element from a set modelled as a list
(`set.discard` / popping a chosen element). -/
def removeStr (l : List String) (u : String) : List String :=
  l.filter (fun x => decide (x ≠ u))

/-- The link-insertion loop of `parse_links_worker` (scrapping_thread.py lines
180-183): schedule each found link that is in neither collection and passes
`is_a_valid_http_link`, recording the provenance edge `(link, source)`. -/
def insertLinks : List String → String → List String → List String →
    List (String × String) → List String × List (String × String)
  | [], _, unv, _, edges => (unv, edges)
  | link :: rest, src, unv, vis, edges =>
      if link ∉ vis ∧ link ∉ unv ∧ is_a_valid_http_link link = true then
        insertLinks rest src (unv ++ [link]) vis (edges ++ [(link, src)])
      else insertLinks rest src unv vis edges

/-- The atomic events of the crawl phase. -/
inductive CrawlEvent
  | pop (u : String)
  | claimTask (i : Nat)
  | work (i : Nat)
  | exitLoop
deriving DecidableEq, Repr

/-- One atomic event of the crawl phase; `none` when the event is not enabled
in the given state. -/
def stepE (net : String → Option HttpResponse) (patOk : String → Bool)
    (e : CrawlEvent) (s : CrawlState) : Option CrawlState :=
  match e with
  | CrawlEvent.pop u =>
      if s.dispDone then none
      else if u ∈ s.unvisited then
        some { s with
          unvisited := removeStr s.unvisited u
          tasks := s.tasks ++ [⟨u, Stage.start⟩] }
      else none
  | CrawlEvent.claimTask i =>
      match s.tasks[i]? with
      | some t =>
          if t.stage = Stage.start then
            if t.url ∈ s.visited then
              some { s with tasks := s.tasks.set i ⟨t.url, Stage.done⟩ }
            else
              some { s with
                visited := t.url :: s.visited
                tasks := s.tasks.set i ⟨t.url, Stage.claimed⟩ }
          else none
      | none => none
  | CrawlEvent.work i =>
      match s.tasks[i]? with
      | some t =>
          if t.stage = Stage.claimed then
            if patOk t.url then
              let res :=
                insertLinks (fetch_links net t.url) t.url s.unvisited
                  s.visited s.edges
              some { s with
                unvisited := res.1
                edges := res.2
                fetched := s.fetched ++ [t.url]
                tasks := s.tasks.set i ⟨t.url, Stage.done⟩ }
            else
              some { s with
                unvisited := removeStr s.unvisited t.url
                tasks := s.tasks.set i ⟨t.url, Stage.done⟩ }
          else none
      | none => none
  | CrawlEvent.exitLoop =>
      if s.dispDone then none
      else if s.unvisited.isEmpty then some { s with dispDone := true }
      else none

/-- A run of the crawl phase: a sequence of enabled atomic events. -/
def run (net : String → Option HttpResponse) (patOk : String → Bool) :
    List CrawlEvent → CrawlState → Option CrawlState
  | [], s => some s
  | e :: evs, s =>
      match stepE net patOk e s with
      | some s' => run net patOk evs s'
      | none => none

/-- The crawl-phase state at the start of `parse_from_links`. -/
def initCrawl (f : Frontier) : CrawlState :=
  { unvisited := f.unvisited, visited := f.visited, edges := [], tasks := []
    fetched := [], dispDone := false }

/-- The pattern admission test of `parse_links_worker` (scrapping_thread.py
lines 168-169): proceed unless a nonempty pattern list has no pattern whose
regex search matches the URL's network location.  The regex search and
netloc extraction are abstracted as parameters. -/
def patternOk (reSearch : String → String → Bool) (netlocOf : String → String)
    (pattern : List String) (url : String) : Bool :=
  if pattern.isEmpty then true
  else pattern.any (fun p => reSearch p (netlocOf url))

/-- An always-true pattern check: the configured pattern list is empty. -/
def patTrue : String → Bool :=
  patternOk (fun _ _ => false) (fun s => s) []

/-! ## Concrete websites used in the counterexamples and witnesses

Each `netCx` describes one small website: which URLs answer, with which
status, anchor hrefs and sitemap `<loc>` entries. -/

/-- A sitemap whose single `<loc>` is a content page. -/
def netC1 : String → Option HttpResponse := fun u =>
  if u = "http://x.com/sitemap.xml" then some ⟨200, [], ["http://x.com/p1"]⟩
  else none

/-- A single page linking to a content-invalid `.png` URL. -/
def netC2 : String → Option HttpResponse := fun u =>
  if u = "http://s" then some ⟨200, ["https://x.com/img.png"], []⟩ else none

/-- A sitemap with two pages `a`, `b`, where page `a` links to `b`. -/
def netC3 : String → Option HttpResponse := fun u =>
  if u = "http://x.com/sitemap.xml" then
    some ⟨200, [], ["http://a", "http://b"]⟩
  else if u = "http://a" then some ⟨200, ["http://b"], []⟩
  else if u = "http://b" then some ⟨200, [], []⟩
  else none

/-- A sitemap with two pages `a`, `c`, both linking to the same new page `b`. -/
def netC4 : String → Option HttpResponse := fun u =>
  if u = "http://x.com/sitemap.xml" then
    some ⟨200, [], ["http://a", "http://c"]⟩
  else if u = "http://a" then some ⟨200, ["http://b"], []⟩
  else if u = "http://c" then some ⟨200, ["http://b"], []⟩
  else if u = "http://b" then some ⟨200, [], []⟩
  else none

/-- A single seed page linking to one further page. -/
def netC5 : String → Option HttpResponse := fun u =>
  if u = "http://a" then some ⟨200, ["http://b"], []⟩ else none

/-- A page answering 404 whose error body still carries an anchor. -/
def net404 : String → Option HttpResponse := fun u =>
  if u = "http://a.com" then some ⟨404, ["http://a.com/err"], []⟩ else none

/-- Two sitemap documents referencing each other (a cycle), each also listing
one content leaf. -/
def netC7 : String → Option HttpResponse := fun u =>
  if u = "http://x.com/sitemap.xml" then
    some ⟨200, [], ["http://x.com/post-1", "http://x.com/sitemap.xml?page=2"]⟩
  else if u = "http://x.com/sitemap.xml?page=2" then
    some ⟨200, [], ["http://x.com/post-2", "http://x.com/sitemap.xml"]⟩
  else none

/-- A website where only the dead URL fails at the transport level. -/
def netC6w : String → Option HttpResponse := fun u =>
  if u = "http://dead.com" then none else some ⟨200, [], []⟩

/-- The interleaving of the C3 race: the dispatcher pops both `a` and `b`;
the worker for `a` claims, fetches, and re-inserts `b` (already popped,
not yet claimed); then the worker for `b` claims it. -/
def evsC3 : List CrawlEvent :=
  [CrawlEvent.pop "http://a", CrawlEvent.pop "http://b", CrawlEvent.claimTask 0,
   CrawlEvent.work 0, CrawlEvent.claimTask 1]

/-- State reached by `evsC3`: `http://b` is in `visited` and in `unvisited`. -/
def c3Final : CrawlState :=
  { unvisited := ["http://x.com/sitemap.xml", "http://b"]
    visited := ["http://b", "http://a"]
    edges := [("http://b", "http://a")]
    tasks := [⟨"http://a", Stage.done⟩, ⟨"http://b", Stage.claimed⟩]
    fetched := ["http://a"]
    dispDone := false }

/-- The interleaving of the C4 race: workers for `a` and `c` both claim; the
worker for `a` inserts `b` with edge `(b, a)`; the dispatcher pops `b`; the
worker for `c` then re-inserts `b` with a second edge `(b, c)`. -/
def evsC4 : List CrawlEvent :=
  [CrawlEvent.pop "http://a", CrawlEvent.pop "http://c", CrawlEvent.claimTask 0,
   CrawlEvent.claimTask 1, CrawlEvent.work 0, CrawlEvent.pop "http://b",
   CrawlEvent.work 1]

/-- State reached by `evsC4`: two edges recorded for the discovered URL
`http://b`. -/
def c4Final : CrawlState :=
  { unvisited := ["http://x.com/sitemap.xml", "http://b"]
    visited := ["http://c", "http://a"]
    edges := [("http://b", "http://a"), ("http://b", "http://c")]
    tasks := [⟨"http://a", Stage.done⟩, ⟨"http://c", Stage.done⟩,
              ⟨"http://b", Stage.start⟩]
    fetched := ["http://a", "http://c"]
    dispDone := false }

/-- The premature-exit schedule: the dispatcher pops the only frontier URL,
observes `unvisited` empty and exits; only afterwards does the worker claim,
fetch, and insert the newly discovered `http://b`. -/
def evsC5 : List CrawlEvent :=
  [CrawlEvent.pop "http://a", CrawlEvent.exitLoop, CrawlEvent.claimTask 0,
   CrawlEvent.work 0]

/-- State reached by `evsC5`: the dispatch loop has exited, every task has
finished, and `http://b` sits in `unvisited`, never to be dispatched. -/
def c5Final : CrawlState :=
  { unvisited := ["http://b"]
    visited := ["http://a"]
    edges := [("http://b", "http://a")]
    tasks := [⟨"http://a", Stage.done⟩]
    fetched := ["http://a"]
    dispDone := true }

/-- A plain sequential schedule for the C2 scenario: pop, claim, work. -/
def evsC2 : List CrawlEvent :=
  [CrawlEvent.pop "http://s", CrawlEvent.claimTask 0, CrawlEvent.work 0]

/-- State reached by `evsC2`: the content-invalid `.png` URL has been
scheduled into `unvisited` (with its provenance edge). -/
def c2Final : CrawlState :=
  { unvisited := ["https://x.com/img.png"]
    visited := ["http://s"]
    edges := [("https://x.com/img.png", "http://s")]
    tasks := [⟨"http://s", Stage.done⟩]
    fetched := ["http://s"]
    dispDone := false }

/-- The URL a worker task contributes to the claimed set: `some` exactly for
tasks between their claim section and their completion. -/
def claimedOf (t : WTask) : Option String :=
  if t.stage = Stage.claimed then some t.url else none

/-- URLs of the tasks currently claimed but not yet finished. -/
def claimedUrls (s : CrawlState) : List String :=
  s.tasks.filterMap claimedOf

/-- The at-most-once-fetch invariant of the crawl phase: every URL occurs at
most once among the fetch log and the claimed in-flight tasks, and every such
URL is recorded as visited. -/
def inv4 (s : CrawlState) : Prop :=
  ∀ u : String,
    (s.fetched ++ claimedUrls s).count u ≤ 1 ∧
    (0 < (s.fetched ++ claimedUrls s).count u → u ∈ s.visited)

/-! ## Helper lemmas -/

theorem mem_removeStr {l : List String} {u x : String} :
    x ∈ removeStr l u ↔ x ∈ l ∧ x ≠ u := by
  simp [removeStr]

theorem mem_insertLinks_fst (found : List String) (src : String) :
    ∀ (unv vis : List String) (edges : List (String × String)) (x : String),
      x ∈ (insertLinks found src unv vis edges).1 ↔
        x ∈ unv ∨ (x ∈ found ∧ x ∉ vis ∧ is_a_valid_http_link x = true) := by
  induction found with
  | nil => intro unv vis edges x; simp [insertLinks]
  | cons l rest ih =>
      intro unv vis edges x
      rw [insertLinks]
      split
      · next h =>
          rw [ih]
          simp only [List.mem_append, List.mem_cons, List.not_mem_nil, or_false]
          constructor
          · rintro ((hu | rfl) | ⟨hr, hv, hh⟩)
            · exact Or.inl hu
            · exact Or.inr ⟨Or.inl rfl, h.1, h.2.2⟩
            · exact Or.inr ⟨Or.inr hr, hv, hh⟩
          · rintro (hu | ⟨hl, hv, hh⟩)
            · exact Or.inl (Or.inl hu)
            · rcases hl with rfl | hr
              · exact Or.inl (Or.inr rfl)
              · exact Or.inr ⟨hr, hv, hh⟩
      · next h =>
          rw [ih]
          simp only [List.mem_cons]
          constructor
          · rintro (hu | ⟨hr, hv, hh⟩)
            · exact Or.inl hu
            · exact Or.inr ⟨Or.inr hr, hv, hh⟩
          · rintro (hu | ⟨hl, hv, hh⟩)
            · exact Or.inl hu
            · rcases hl with rfl | hr
              · by_cases hlu : x ∈ unv
                · exact Or.inl hlu
                · exact absurd ⟨hv, hlu, hh⟩ h
              · exact Or.inr ⟨hr, hv, hh⟩

theorem stepE_cases {net : String → Option HttpResponse} {patOk : String → Bool}
    {e : CrawlEvent} {s s' : CrawlState} (h : stepE net patOk e s = some s') :
    (∃ v, s.dispDone = false ∧ v ∈ s.unvisited ∧
      s' = { s with unvisited := removeStr s.unvisited v
                    tasks := s.tasks ++ [⟨v, Stage.start⟩] }) ∨
    (∃ i t, s.tasks[i]? = some t ∧ t.stage = Stage.start ∧ t.url ∈ s.visited ∧
      s' = { s with tasks := s.tasks.set i ⟨t.url, Stage.done⟩ }) ∨
    (∃ i t, s.tasks[i]? = some t ∧ t.stage = Stage.start ∧ t.url ∉ s.visited ∧
      s' = { s with visited := t.url :: s.visited
                    tasks := s.tasks.set i ⟨t.url, Stage.claimed⟩ }) ∨
    (∃ i t, s.tasks[i]? = some t ∧ t.stage = Stage.claimed ∧ patOk t.url = true ∧
      s' = { s with
        unvisited :=
          (insertLinks (fetch_links net t.url) t.url s.unvisited s.visited
            s.edges).1
        edges :=
          (insertLinks (fetch_links net t.url) t.url s.unvisited s.visited
            s.edges).2
        fetched := s.fetched ++ [t.url]
        tasks := s.tasks.set i ⟨t.url, Stage.done⟩ }) ∨
    (∃ i t, s.tasks[i]? = some t ∧ t.stage = Stage.claimed ∧ patOk t.url = false ∧
      s' = { s with unvisited := removeStr s.unvisited t.url
                    tasks := s.tasks.set i ⟨t.url, Stage.done⟩ }) ∨
    (s.dispDone = false ∧ s.unvisited = [] ∧ s' = { s with dispDone := true }) := by
  cases e with
  | pop v =>
      simp only [stepE] at h
      split_ifs at h with h1 h2
      · exact Or.inl ⟨v, by simp [h1], h2, (Option.some.inj h).symm⟩
  | claimTask i =>
      simp only [stepE] at h
      rcases ht : s.tasks[i]? with _ | t <;> simp only [ht] at h
      · exact Option.noConfusion h
      · split_ifs at h with h1 h2
        · exact Or.inr (Or.inl ⟨i, t, ht, h1, h2, (Option.some.inj h).symm⟩)
        · exact Or.inr (Or.inr (Or.inl ⟨i, t, ht, h1, h2, (Option.some.inj h).symm⟩))
  | work i =>
      simp only [stepE] at h
      rcases ht : s.tasks[i]? with _ | t <;> simp only [ht] at h
      · exact Option.noConfusion h
      · split_ifs at h with h1 h2
        · exact Or.inr (Or.inr (Or.inr (Or.inl
            ⟨i, t, ht, h1, h2, (Option.some.inj h).symm⟩)))
        · exact Or.inr (Or.inr (Or.inr (Or.inr (Or.inl
            ⟨i, t, ht, h1, by simpa using h2, (Option.some.inj h).symm⟩))))
  | exitLoop =>
      simp only [stepE] at h
      split_ifs at h with h1 h2
      · exact Or.inr (Or.inr (Or.inr (Or.inr (Or.inr
          ⟨by simp [h1], List.isEmpty_iff.mp h2, (Option.some.inj h).symm⟩))))

theorem stepE_visited_mono {net : String → Option HttpResponse}
    {patOk : String → Bool} {e : CrawlEvent} {s s' : CrawlState}
    (h : stepE net patOk e s = some s') :
    ∀ u ∈ s.visited, u ∈ s'.visited := by
  intro u hu
  rcases stepE_cases h with
    ⟨v, _, _, rfl⟩ | ⟨i, t, _, _, _, rfl⟩ | ⟨i, t, _, _, _, rfl⟩ |
    ⟨i, t, _, _, _, rfl⟩ | ⟨i, t, _, _, _, rfl⟩ | ⟨_, _, rfl⟩ <;>
    first
      | exact hu
      | exact List.mem_cons_of_mem _ hu

theorem stepE_visited_persistent {net : String → Option HttpResponse}
    {patOk : String → Bool} {e : CrawlEvent} {s s' : CrawlState}
    (h : stepE net patOk e s = some s') (u : String)
    (h1 : u ∈ s.visited) (h2 : u ∉ s.unvisited) :
    u ∈ s'.visited ∧ u ∉ s'.unvisited := by
  rcases stepE_cases h with
    ⟨v, _, _, rfl⟩ | ⟨i, t, _, _, _, rfl⟩ | ⟨i, t, _, _, _, rfl⟩ |
    ⟨i, t, _, _, _, rfl⟩ | ⟨i, t, _, _, _, rfl⟩ | ⟨_, _, rfl⟩
  · exact ⟨h1, fun hc => h2 (mem_removeStr.mp hc).1⟩
  · exact ⟨h1, h2⟩
  · exact ⟨List.mem_cons_of_mem _ h1, h2⟩
  · refine ⟨h1, fun hc => ?_⟩
    rcases (mem_insertLinks_fst _ _ _ _ _ _).mp hc with hc | ⟨_, hv, _⟩
    · exact h2 hc
    · exact hv h1
  · exact ⟨h1, fun hc => h2 (mem_removeStr.mp hc).1⟩
  · exact ⟨h1, h2⟩

theorem run_visited_persistent {net : String → Option HttpResponse}
    {patOk : String → Bool} :
    ∀ (evs : List CrawlEvent) (s s' : CrawlState) (u : String),
      run net patOk evs s = some s' → u ∈ s.visited → u ∉ s.unvisited →
      u ∈ s'.visited ∧ u ∉ s'.unvisited := by
  intro evs
  induction evs with
  | nil =>
      intro s s' u h h1 h2
      cases h
      exact ⟨h1, h2⟩
  | cons e evs ih =>
      intro s s' u h h1 h2
      simp only [run] at h
      rcases hs : stepE net patOk e s with _ | s₁ <;> simp only [hs] at h
      · exact Option.noConfusion h
      · obtain ⟨g1, g2⟩ := stepE_visited_persistent hs u h1 h2
        exact ih s₁ s' u h g1 g2

theorem getElem?_decomp {α : Type} :
    ∀ (l : List α) (i : Nat) (t : α), l[i]? = some t →
      l = l.take i ++ t :: l.drop (i + 1) ∧
        ∀ t' : α, l.set i t' = l.take i ++ t' :: l.drop (i + 1) := by
  intro l
  induction l with
  | nil => intro i t h; simp at h
  | cons a as ih =>
      intro i t h
      cases i with
      | zero =>
          simp only [List.getElem?_cons_zero, Option.some.injEq] at h
          subst h
          simp
      | succ n =>
          simp only [List.getElem?_cons_succ] at h
          obtain ⟨h1, h2⟩ := ih n t h
          constructor
          · conv_lhs => rw [h1]
            simp
          · intro t'
            simp only [List.set_cons_succ, List.take_succ_cons, List.drop_succ_cons,
              List.cons_append]
            rw [h2 t']

theorem claimedOf_done {u : String} : claimedOf ⟨u, Stage.done⟩ = none := rfl

theorem claimedOf_claimed {u : String} :
    claimedOf ⟨u, Stage.claimed⟩ = some u := rfl

theorem claimedOf_eq_some {t : WTask} (h : t.stage = Stage.claimed) :
    claimedOf t = some t.url := by
  simp [claimedOf, h]

theorem claimedOf_eq_none {t : WTask} (h : t.stage = Stage.start) :
    claimedOf t = none := by
  simp [claimedOf, h]

theorem count_set_start_done {l : List WTask} {i : Nat} {t : WTask}
    (h : l[i]? = some t) (hst : t.stage = Stage.start) (u : String) :
    ((l.set i ⟨t.url, Stage.done⟩).filterMap claimedOf).count u =
      (l.filterMap claimedOf).count u := by
  obtain ⟨h1, h2⟩ := getElem?_decomp l i t h
  rw [h2]
  conv_rhs => rw [h1]
  rw [List.filterMap_append, List.filterMap_append,
    List.filterMap_cons_none claimedOf_done,
    List.filterMap_cons_none (claimedOf_eq_none hst)]

theorem count_set_start_claimed {l : List WTask} {i : Nat} {t : WTask}
    (h : l[i]? = some t) (hst : t.stage = Stage.start) (u : String) :
    ((l.set i ⟨t.url, Stage.claimed⟩).filterMap claimedOf).count u =
      (l.filterMap claimedOf).count u + (if u = t.url then 1 else 0) := by
  obtain ⟨h1, h2⟩ := getElem?_decomp l i t h
  rw [h2]
  conv_rhs => rw [h1]
  rw [List.filterMap_append, List.filterMap_append,
    List.filterMap_cons_some claimedOf_claimed,
    List.filterMap_cons_none (claimedOf_eq_none hst)]
  by_cases hu : u = t.url
  · subst hu
    simp [List.count_append, List.count_cons]
    omega
  · simp [List.count_append, List.count_cons, hu]

theorem count_set_claimed_done {l : List WTask} {i : Nat} {t : WTask}
    (h : l[i]? = some t) (hst : t.stage = Stage.claimed) (u : String) :
    ((l.set i ⟨t.url, Stage.done⟩).filterMap claimedOf).count u +
      (if u = t.url then 1 else 0) = (l.filterMap claimedOf).count u := by
  obtain ⟨h1, h2⟩ := getElem?_decomp l i t h
  rw [h2]
  conv_rhs => rw [h1]
  rw [List.filterMap_append, List.filterMap_append,
    List.filterMap_cons_none claimedOf_done,
    List.filterMap_cons_some (claimedOf_eq_some hst)]
  by_cases hu : u = t.url
  · subst hu
    simp [List.count_append, List.count_cons]
    omega
  · simp [List.count_append, List.count_cons, hu]

theorem stepE_inv4 {net : String → Option HttpResponse} {patOk : String → Bool}
    {e : CrawlEvent} {s s' : CrawlState} (h : stepE net patOk e s = some s')
    (hi : inv4 s) : inv4 s' := by
  rcases stepE_cases h with
    ⟨v, _, _, rfl⟩ | ⟨i, t, ht, hst, hvis, rfl⟩ | ⟨i, t, ht, hst, hvis, rfl⟩ |
    ⟨i, t, ht, hst, hp, rfl⟩ | ⟨i, t, ht, hst, hp, rfl⟩ | ⟨_, _, rfl⟩
  · -- pop: a start task is appended, claimed URLs unchanged
    intro u
    have h0 := hi u
    simpa [claimedUrls, List.filterMap_append, claimedOf_eq_none,
      List.filterMap_cons_none] using h0
  · -- claimTask on an already-visited URL: start task becomes done
    intro u
    have h0 := hi u
    have hc := count_set_start_done ht hst u
    simp only [claimedUrls, List.count_append] at h0 ⊢
    rw [hc]
    exact h0
  · -- claimTask marking a new URL visited: start task becomes claimed
    intro u
    have h0 := hi u
    have hc := count_set_start_claimed ht hst u
    simp only [claimedUrls, List.count_append] at h0 ⊢
    rw [hc]
    by_cases hu : u = t.url
    · have hz : s.fetched.count u + (s.tasks.filterMap claimedOf).count u = 0 := by
        by_contra hnz
        have hm : u ∈ s.visited := h0.2 (by omega)
        rw [hu] at hm
        exact hvis hm
      rw [if_pos hu]
      refine ⟨by omega, fun _ => ?_⟩
      rw [hu]
      exact List.mem_cons_self _ _
    · rw [if_neg hu]
      exact ⟨by omega, fun hpos =>
        List.mem_cons_of_mem _ (h0.2 (by omega))⟩
  · -- work, pattern passes: fetch logged, claimed task becomes done
    intro u
    have h0 := hi u
    have hc := count_set_claimed_done ht hst u
    simp only [claimedUrls, List.count_append] at h0 ⊢
    by_cases hu : u = t.url
    · rw [if_pos hu] at hc
      have hs1 : List.count u ([t.url] : List String) = 1 := by simp [hu]
      rw [hs1]
      exact ⟨by omega, fun _ => h0.2 (by omega)⟩
    · rw [if_neg hu] at hc
      have hs0 : List.count u ([t.url] : List String) = 0 :=
        List.count_eq_zero.mpr (by simp [hu])
      rw [hs0]
      exact ⟨by omega, fun hpos => h0.2 (by omega)⟩
  · -- work, pattern fails: claimed task becomes done, nothing fetched
    intro u
    have h0 := hi u
    have hc := count_set_claimed_done ht hst u
    simp only [claimedUrls, List.count_append] at h0 ⊢
    by_cases hu : u = t.url
    · rw [if_pos hu] at hc
      exact ⟨by omega, fun hpos => h0.2 (by omega)⟩
    · rw [if_neg hu] at hc
      exact ⟨by omega, fun hpos => h0.2 (by omega)⟩
  · -- exitLoop: nothing relevant changes
    intro u
    exact hi u

theorem run_inv4 {net : String → Option HttpResponse} {patOk : String → Bool} :
    ∀ (evs : List CrawlEvent) (s s' : CrawlState),
      run net patOk evs s = some s' → inv4 s → inv4 s' := by
  intro evs
  induction evs with
  | nil =>
      intro s s' h hi
      cases h
      exact hi
  | cons e evs ih =>
      intro s s' h hi
      simp only [run] at h
      rcases hs : stepE net patOk e s with _ | s₁ <;> simp only [hs] at h
      · exact Option.noConfusion h
      · exact ih s₁ s' h (stepE_inv4 hs hi)

theorem mem_addNewLinks {vis : List String} :
    ∀ (ls rest : List String) (x : String),
      x ∈ addNewLinks vis ls rest → x ∈ rest ∨ (x ∈ ls ∧ x ∉ vis) := by
  intro ls
  induction ls with
  | nil =>
      intro rest x h
      rw [addNewLinks] at h
      exact Or.inl h
  | cons l ls ih =>
      intro rest x h
      rw [addNewLinks] at h
      split at h
      · rcases ih _ _ h with h1 | h2
        · exact Or.inl h1
        · exact Or.inr ⟨List.mem_cons_of_mem _ h2.1, h2.2⟩
      · next hcond =>
          rw [not_or] at hcond
          rcases ih _ _ h with h1 | h2
          · rcases List.mem_append.mp h1 with h1 | h1
            · exact Or.inl h1
            · have hx : x = l := List.mem_singleton.mp h1
              subst hx
              exact Or.inr ⟨List.mem_cons_self _ _, hcond.1⟩
          · exact Or.inr ⟨List.mem_cons_of_mem _ h2.1, h2.2⟩

theorem addNewLinks_length {vis : List String} :
    ∀ (ls rest : List String),
      (addNewLinks vis ls rest).length ≤ rest.length + ls.length := by
  intro ls
  induction ls with
  | nil => intro rest; rw [addNewLinks]; simp
  | cons l ls ih =>
      intro rest
      rw [addNewLinks]
      split
      · have := ih rest
        simp only [List.length_cons]
        omega
      · have := ih (rest ++ [l])
        simp at this ⊢
        omega

theorem addNewLinks_nodup {vis : List String} :
    ∀ (ls rest : List String), rest.Nodup → (addNewLinks vis ls rest).Nodup := by
  intro ls
  induction ls with
  | nil => intro rest h; rw [addNewLinks]; exact h
  | cons l ls ih =>
      intro rest h
      rw [addNewLinks]
      split
      · exact ih rest h
      · next hcond =>
          rw [not_or] at hcond
          refine ih _ ?_
          exact ((List.perm_append_singleton l rest).nodup_iff).mpr
            (List.nodup_cons.mpr ⟨hcond.2, h⟩)

theorem psAux_disjoint {net : String → Option HttpResponse} :
    ∀ (fuel : Nat) (vis unv : List String),
      (∀ x ∈ vis, x ∉ unv) → unv.Nodup →
      ∀ x ∈ (processSitemapsAux net fuel vis unv).1,
        x ∉ (processSitemapsAux net fuel vis unv).2 := by
  intro fuel
  induction fuel with
  | zero =>
      intro vis unv hdis _ x hx
      exact hdis x hx
  | succ fuel ih =>
      intro vis unv hdis hnd x
      cases unv with
      | nil =>
          rw [processSitemapsAux]
          intro _ hc
          exact List.not_mem_nil _ hc
      | cons u rest =>
          rw [processSitemapsAux]
          split
          · next hu =>
              exact ih vis rest
                (fun y hy => fun hc => hdis y hy (List.mem_cons_of_mem _ hc))
                (List.nodup_cons.mp hnd).2 x
          · next hu =>
              refine ih (u :: vis) _ ?_ ?_ x
              · intro y hy hc
                rcases mem_addNewLinks _ _ _ hc with hcr | hcc
                · rcases List.mem_cons.mp hy with hyu | hyv
                  · subst hyu
                    exact (List.nodup_cons.mp hnd).1 hcr
                  · exact hdis y hyv (List.mem_cons_of_mem _ hcr)
                · exact hcc.2 hy
              · exact addNewLinks_nodup _ _ (List.nodup_cons.mp hnd).2

theorem psAux_terminates (net : String → Option HttpResponse)
    (U : Finset String) (K : Nat)
    (hK : ∀ u ∈ U, (sitemapChildren net u).length ≤ K)
    (hclosed : ∀ u ∈ U, ∀ l ∈ sitemapChildren net u, l ∈ U) :
    ∀ (fuel : Nat) (vis unv : List String), (∀ l ∈ unv, l ∈ U) →
      (U \ vis.toFinset).card * (K + 1) + unv.length < fuel →
      (processSitemapsAux net fuel vis unv).2 = [] := by
  intro fuel
  induction fuel with
  | zero =>
      intro vis unv _ hm
      exact absurd hm (Nat.not_lt_zero _)
  | succ fuel ih =>
      intro vis unv hsub hm
      cases unv with
      | nil =>
          rw [processSitemapsAux]
      | cons u rest =>
          rw [processSitemapsAux]
          split
          · next hu =>
              refine ih vis rest
                (fun l hl => hsub l (List.mem_cons_of_mem _ hl)) ?_
              simp only [List.length_cons] at hm
              omega
          · next hu =>
              have huU : u ∈ U := hsub u (List.mem_cons_self _ _)
              have husd : u ∈ U \ vis.toFinset :=
                Finset.mem_sdiff.mpr ⟨huU, by simpa using hu⟩
              have hcard : (U \ (u :: vis).toFinset).card + 1 =
                  (U \ vis.toFinset).card := by
                rw [List.toFinset_cons, Finset.sdiff_insert,
                  Finset.card_erase_of_mem husd]
                have hpos : 0 < (U \ vis.toFinset).card :=
                  Finset.card_pos.mpr ⟨u, husd⟩
                omega
              have hlen :
                  (addNewLinks (u :: vis) (sitemapChildren net u) rest).length ≤
                    rest.length + K := by
                have ha := @addNewLinks_length (u :: vis)
                  (sitemapChildren net u) rest
                have hb := hK u huU
                omega
              refine ih (u :: vis) _ ?_ ?_
              · intro l hl
                rcases mem_addNewLinks _ _ _ hl with h1 | h2
                · exact hsub l (List.mem_cons_of_mem _ h1)
                · exact hclosed u huU l h2.1
              · simp only [List.length_cons] at hm
                have hmul : (U \ (u :: vis).toFinset).card * (K + 1) + (K + 1) =
                    (U \ vis.toFinset).card * (K + 1) := by
                  calc (U \ (u :: vis).toFinset).card * (K + 1) + (K + 1)
                      = ((U \ (u :: vis).toFinset).card + 1) * (K + 1) := by ring
                    _ = (U \ vis.toFinset).card * (K + 1) := by rw [hcard]
                generalize hA : (U \ (u :: vis).toFinset).card * (K + 1) = A
                  at hmul ⊢
                generalize hB : (U \ vis.toFinset).card * (K + 1) = B
                  at hmul hm
                omega

/-! ## Claim theorems -/

/-- **C1** (counterexample): after sitemap expansion and the reset, the
crawl-phase `unvisited` frontier still contains the seed sitemap document
itself — a sitemap document, not a content URL — refuting the claim that the
visited sitemap documents are discarded and only content URLs seed the crawl
phase. -/
theorem c1_counterexample :
    "http://x.com/sitemap.xml" ∈
      (crawlSeedFrontier netC1 5 "http://x.com/sitemap.xml").unvisited ∧
    containsSub "http://x.com/sitemap.xml" "sitemap.xml" = true := by
  decide

/-- **C1** (amended): `reset_counts` replaces `unvisited` with the *entire*
accumulated `visited` set — sitemap documents included — and empties
`visited`; concretely, a seed sitemap listing one content page seeds the
crawl phase with both the content page and the sitemap document. -/
theorem c1_frontier_after_reset :
    (∀ f : Frontier, reset_counts f = ⟨[], f.visited⟩) ∧
    crawlSeedFrontier netC1 5 "http://x.com/sitemap.xml" =
      ⟨[], ["http://x.com/p1", "http://x.com/sitemap.xml"]⟩ :=
  ⟨fun _ => rfl, by decide⟩

/-- **C2** (counterexample): during the crawl phase a link ending in `.png`
(content-invalid) is nevertheless scheduled into `unvisited`, refuting the
claim that all three checks gate scheduling. -/
theorem c2_counterexample :
    run netC2 patTrue evsC2 (initCrawl (crawlSeedFrontier netC2 3 "http://s")) =
      some c2Final ∧
    "https://x.com/img.png" ∈ c2Final.unvisited ∧
    is_url_content "https://x.com/img.png" = false := by
  decide

/-- **C2** (amended): a discovered link is scheduled iff it is in neither
`visited` nor `unvisited` and passes the scheme-validity check alone —
content validity and the pattern check play no role at scheduling time. -/
theorem c2_scheduling_iff (found : List String) (src : String)
    (unv vis : List String) (edges : List (String × String)) (x : String) :
    x ∈ (insertLinks found src unv vis edges).1 ↔
      x ∈ unv ∨ (x ∈ found ∧ x ∉ vis ∧ is_a_valid_http_link x = true) :=
  mem_insertLinks_fst found src unv vis edges x

/-- **C3** (counterexample): an interleaving of a genuine two-phase run in
which the dispatcher pops `http://b`, a worker rediscovers and re-inserts it,
and the worker for `http://b` then claims it — reaching a state with
`http://b` in `visited` and in `unvisited` simultaneously. -/
theorem c3_counterexample :
    run netC3 patTrue evsC3
        (initCrawl (crawlSeedFrontier netC3 7 "http://x.com/sitemap.xml")) =
      some c3Final ∧
    "http://b" ∈ c3Final.visited ∧ "http://b" ∈ c3Final.unvisited := by
  decide

/-- **C3** (amended): the sequential sitemap phase does keep `visited` and
`unvisited` disjoint, and in the crawl phase a URL that is in `visited` and
not in `unvisited` stays so forever (once visited, never re-added); but
transient `visited ∩ unvisited ≠ ∅` states are reachable (see the
counterexample). -/
theorem c3_visited_never_readded :
    (∀ (net : String → Option HttpResponse) (fuel : Nat) (vis unv : List String),
        (∀ x ∈ vis, x ∉ unv) → unv.Nodup →
        ∀ x ∈ (processSitemapsAux net fuel vis unv).1,
          x ∉ (processSitemapsAux net fuel vis unv).2) ∧
    (∀ (net : String → Option HttpResponse) (patOk : String → Bool)
        (evs : List CrawlEvent) (s s' : CrawlState) (u : String),
        run net patOk evs s = some s' → u ∈ s.visited → u ∉ s.unvisited →
        u ∈ s'.visited ∧ u ∉ s'.unvisited) :=
  ⟨fun _ => psAux_disjoint, fun _ _ => run_visited_persistent⟩

/-- **C3** witness: the theorem applied at concrete inputs. -/
theorem c3_visited_never_readded_witness :
    "http://u" ∉ (processSitemapsAux (fun _ => none) 2 [] ["http://u"]).2 ∧
    ("http://a" ∈ (⟨[], ["http://a"], [], [], [], true⟩ : CrawlState).visited ∧
      "http://a" ∉
        (⟨[], ["http://a"], [], [], [], true⟩ : CrawlState).unvisited) :=
  ⟨c3_visited_never_readded.1 (fun _ => none) 2 [] ["http://u"] (by simp)
      (by decide) "http://u" (by decide),
    c3_visited_never_readded.2 (fun _ => none) patTrue [CrawlEvent.exitLoop]
      ⟨[], ["http://a"], [], [], [], false⟩ ⟨[], ["http://a"], [], [], [], true⟩
      "http://a" (by decide) (by decide) (by decide)⟩

/-- **C4** (counterexample): an interleaving of a genuine two-phase run in
which two workers discover the same new link `http://b` and, because the
dispatcher pops it between their two insertions, *two* edges are recorded for
it — refuting "at most one edge per discovered URL". -/
theorem c4_counterexample :
    run netC4 patTrue evsC4
        (initCrawl (crawlSeedFrontier netC4 9 "http://x.com/sitemap.xml")) =
      some c4Final ∧
    c4Final.edges.map Prod.fst = ["http://b", "http://b"] ∧
    c4Final.fetched = ["http://a", "http://c"] := by
  decide

/-- **C4** (amended): each URL is fetched at most once per run — the claim
check-and-mark section makes the ghost fetch log duplicate-free in every
reachable crawl-phase state (edges, however, can be recorded twice for one
URL, as the counterexample shows). -/
theorem c4_fetch_at_most_once (net : String → Option HttpResponse)
    (patOk : String → Bool) (evs : List CrawlEvent) (s s' : CrawlState)
    (hrun : run net patOk evs s = some s')
    (hf : s.fetched = []) (ht : s.tasks = []) :
    s'.fetched.Nodup := by
  have h0 : inv4 s := by
    intro u
    simp [claimedUrls, hf, ht]
  have h1 := run_inv4 evs s s' hrun h0
  rw [List.nodup_iff_count_le_one]
  intro a
  have h2 := (h1 a).1
  simp only [List.count_append] at h2
  omega

/-- **C4** witness: the theorem applied to a concrete completed run. -/
theorem c4_fetch_at_most_once_witness : c2Final.fetched.Nodup :=
  c4_fetch_at_most_once netC2 patTrue evsC2
    (initCrawl (crawlSeedFrontier netC2 3 "http://s")) c2Final (by decide)
    rfl rfl

/-- **C5** (code evaluation at the failing input): starting from the frontier
`{http://a}` where the page links to `http://b`, the dispatch loop of
`parse_from_links` pops the only URL, observes `unvisited` empty and exits
while the worker is still in flight; the worker then inserts `http://b`,
which is never dispatched: the final state has the loop exited, `http://b`
unvisited and never fetched, and no event enabled — the loop terminated on a
single empty observation, not at quiescence. -/
theorem c5_premature_exit :
    run netC5 patTrue evsC5 (initCrawl (crawlSeedFrontier netC5 3 "http://a")) =
      some c5Final ∧
    c5Final.dispDone = true ∧
    c5Final.unvisited = ["http://b"] ∧
    "http://b" ∉ c5Final.fetched ∧
    ∀ e : CrawlEvent, stepE netC5 patTrue e c5Final = none := by
  refine ⟨by decide, by decide, by decide, by decide, fun e => ?_⟩
  cases e with
  | pop u => simp [stepE, c5Final]
  | claimTask i =>
      cases i with
      | zero => decide
      | succ n => simp [stepE, c5Final]
  | work i =>
      cases i with
      | zero => decide
      | succ n => simp [stepE, c5Final]
  | exitLoop => decide

/-- **C6** (counterexample): `fetch_links` performs no status check — on a
404 response whose body carries an anchor, it returns that link rather than
the empty set, refuting "on any HTTP-status failure it returns an empty link
set". -/
theorem c6_counterexample :
    (net404 "http://a.com").map HttpResponse.status = some 404 ∧
    fetch_links net404 "http://a.com" = ["http://a.com/err"] ∧
    fetch_links net404 "http://a.com" ≠ [] := by
  decide

/-- **C6** (amended): on a transport failure (raised request exception)
`fetch_links` returns the empty link set without aborting; on any received
response — regardless of status — it returns the hrefs resolved against the
requested URL; and no crawl-phase event ever removes a URL from `visited`. -/
theorem c6_fetch_links_contract (net : String → Option HttpResponse)
    (url : String) :
    (net url = none → fetch_links net url = []) ∧
    (∀ r : HttpResponse, net url = some r →
      fetch_links net url = r.hrefs.map (urljoin url)) ∧
    (∀ (patOk : String → Bool) (e : CrawlEvent) (s s' : CrawlState),
      stepE net patOk e s = some s' → ∀ u ∈ s.visited, u ∈ s'.visited) := by
  refine ⟨fun h => ?_, fun r h => ?_, fun patOk e s s' h => stepE_visited_mono h⟩
  · simp [fetch_links, h]
  · simp [fetch_links, h]

/-- **C6** witness: the theorem applied at concrete inputs. -/
theorem c6_fetch_links_contract_witness :
    fetch_links netC6w "http://dead.com" = [] ∧
    fetch_links netC6w "http://ok.com" = [] ∧
    "http://v" ∈ (⟨[], ["http://v"], [], [], [], true⟩ : CrawlState).visited :=
  ⟨(c6_fetch_links_contract netC6w "http://dead.com").1 (by decide),
    (c6_fetch_links_contract netC6w "http://ok.com").2.1 ⟨200, [], []⟩ (by decide),
    (c6_fetch_links_contract netC6w "http://x").2.2 patTrue CrawlEvent.exitLoop
      ⟨[], ["http://v"], [], [], [], false⟩ ⟨[], ["http://v"], [], [], [], true⟩
      (by decide) "http://v" (by decide)⟩

/-- **C7**: sitemap expansion reaches the empty frontier (terminates) for
every website whose reachable sitemap universe is finite — each processed URL
becomes visited and is never reprocessed, so a fuel bound proportional to the
universe size suffices, cycles included. -/
theorem c7_sitemap_expansion_terminates (net : String → Option HttpResponse)
    (U : Finset String) (K fuel : Nat) (seed : String)
    (hseed : seed ∈ U)
    (hK : ∀ u ∈ U, (sitemapChildren net u).length ≤ K)
    (hclosed : ∀ u ∈ U, ∀ l ∈ sitemapChildren net u, l ∈ U)
    (hfuel : U.card * (K + 1) + 1 < fuel) :
    (processSitemaps net fuel seed).2 = [] := by
  refine psAux_terminates net U K hK hclosed fuel [] [seed] ?_ ?_
  · intro l hl
    rw [List.mem_singleton.mp hl]
    exact hseed
  · simpa using hfuel

/-- **C7** witness: the cyclic pair of sitemaps (each referencing the other)
terminates and yields both leaves, each exactly once, alongside the two
sitemap documents. -/
theorem c7_sitemap_expansion_terminates_witness :
    (processSitemaps netC7 14 "http://x.com/sitemap.xml").2 = [] ∧
    (processSitemaps netC7 14 "http://x.com/sitemap.xml").1 =
      ["http://x.com/post-2", "http://x.com/sitemap.xml?page=2",
       "http://x.com/post-1", "http://x.com/sitemap.xml"] :=
  ⟨c7_sitemap_expansion_terminates netC7
      {"http://x.com/sitemap.xml", "http://x.com/sitemap.xml?page=2",
        "http://x.com/post-1", "http://x.com/post-2"} 2 14
      "http://x.com/sitemap.xml" (by decide) (by decide) (by decide)
      (by decide),
    by decide⟩

/-- **C8**: constructing a `WebCrawler` with a missing (`None`) or empty seed
sitemap URL raises `ValueError` at construction time; a nonempty seed is
stored and construction succeeds. -/
theorem c8_seed_required (w : Nat) (t : String) (p : List String) :
    webCrawlerInit w none t p = Except.error "Sitemap URL is required" ∧
    webCrawlerInit w (some "") t p = Except.error "Sitemap URL is required" ∧
    ∀ u : String, u ≠ "" →
      webCrawlerInit w (some u) t p = Except.ok ⟨w, u, t, p, false⟩ := by
  refine ⟨rfl, rfl, fun u hu => ?_⟩
  simp [webCrawlerInit, hu]

/-- **C8** witness: the theorem applied at the configuration of `init.py`. -/
theorem c8_seed_required_witness :
    webCrawlerInit 20 (some "https://example.com/sitemap.xml") "Site Crawler"
        [] =
      Except.ok
        ⟨20, "https://example.com/sitemap.xml", "Site Crawler", [], false⟩ :=
  (c8_seed_required 20 "Site Crawler" []).2.2 "https://example.com/sitemap.xml"
    (by decide)

/-- **C9**: the reported completion percentage is
`visited / (visited + unvisited) × 100` rounded to two decimals, and for
`visited = 3`, `unvisited = 7` it is exactly `30`. -/
theorem c9_completion_percentage :
    update_progress 3 7 = Except.ok 30 ∧
    ∀ v u : Nat, 0 < v + u →
      update_progress v u =
        Except.ok (round2 ((v : ℚ) / ((v : ℚ) + (u : ℚ)) * 100)) := by
  constructor
  · norm_num [update_progress, round2, round_eq]
  · intro v u h
    have h2 : ¬ (u + v = 0) := by omega
    simp only [update_progress, if_neg h2]
    rw [add_comm ((u : ℚ)) ((v : ℚ))]

/-- **C9** witness: the theorem applied at `visited = 3`, `unvisited = 7`. -/
theorem c9_completion_percentage_witness :
    update_progress 3 7 =
      Except.ok (round2 ((3 : ℚ) / ((3 : ℚ) + (7 : ℚ)) * 100)) :=
  c9_completion_percentage.2 3 7 (by norm_num)

/-- **C10**: the completion-percentage computation has no zero guard — at
`visited = 0`, `unvisited = 0` it raises `ZeroDivisionError`, and it succeeds
whenever `visited + unvisited ≥ 1`. -/
theorem c10_zero_division :
    update_progress 0 0 = Except.error "ZeroDivisionError" ∧
    ∀ v u : Nat, 0 < v + u → ∃ q : ℚ, update_progress v u = Except.ok q := by
  constructor
  · rfl
  · intro v u h
    have h2 : ¬ (u + v = 0) := by omega
    refine ⟨round2 ((v : ℚ) / ((u : ℚ) + (v : ℚ)) * 100), ?_⟩
    simp only [update_progress, if_neg h2]

/-- **C10** witness: the theorem applied at `visited = 1`, `unvisited = 0`. -/
theorem c10_zero_division_witness :
    ∃ q : ℚ, update_progress 1 0 = Except.ok q :=
  c10_zero_division.2 1 0 (by norm_num)
